import Mathlib

/-!
Verification of the conformance-checking / data-preparation / discovery pipeline
of the CurriculumOptimizationPM02269 repository, as a shallow embedding in Lean.

Numeric values that are Python floats in the source are modelled as exact
rationals (`ℚ`); report lines are modelled as a structured datatype carrying the
fixed text of each `write` call together with its numeric payloads.
-/

/- ========================================================================
   Part 1: embedding of src/src/conformance_checking.py
   ======================================================================== -/

/-- line 33: `ALIGNMENT_MAX_TRACES = 20` (limit traces to keep runtime bounded). -/
def ALIGNMENT_MAX_TRACES : ℕ := 20

/-- line 32: `ALIGNMENT_MAX_TIME = 25` (passed to the external alignment engine only). -/
def ALIGNMENT_MAX_TIME : ℕ := 25

/-- line 34: `FITNESS_FIT_EPS = 1e-6`, as an exact rational. -/
def FITNESS_FIT_EPS : ℚ := 1 / 1000000

/-- One per-trace result of the external `token_replay.apply` call: a result
dictionary, whose `"trace_fitness"` entry is always present (pm4py sets it on
every produced result). -/
structure TRResult where
  trace_fitness : ℚ
deriving DecidableEq

/-- One element of the list returned by the external `alignments.apply` call:
either not a dict at all (e.g. `None` for a timed-out trace), a dict lacking the
`"fitness"` key, or a dict carrying a fitness value. -/
inductive AlignRes
  | nonDict
  | dictNoFitness
  | dictFitness (f : ℚ)
deriving DecidableEq

/-- `isinstance(a, dict)` (line 126). -/
def AlignRes.isDict : AlignRes → Bool
  | .nonDict => false
  | .dictNoFitness => true
  | .dictFitness _ => true

/-- `a.get("fitness")` guarded by `"fitness" in a` (line 127). -/
def AlignRes.fitnessVal : AlignRes → Option ℚ
  | .dictFitness f => some f
  | _ => none

/-- Lines 126–127: `valid_align = [a for a in align_res if isinstance(a, dict)]`
followed by `fitness_values = [a.get("fitness") for a in valid_align if "fitness" in a]`. -/
def fitnessValues (rs : List AlignRes) : List ℚ :=
  (rs.filter AlignRes.isDict).filterMap AlignRes.fitnessVal

/-- Number of alignment results excluded from the aggregates (not a dict, or a
dict without a fitness value). -/
def excludedCount (rs : List AlignRes) : ℕ :=
  rs.length - (fitnessValues rs).length

/-- Python `min` on a non-empty list (the `0` default is unreachable in the
embedded code: every call site is guarded by a non-emptiness check, and Python
`min([])` raises). -/
def pyMin : List ℚ → ℚ
  | [] => 0
  | x :: xs => xs.foldl min x

/-- Python `max` on a non-empty list (same guard remark as `pyMin`). -/
def pyMax : List ℚ → ℚ
  | [] => 0
  | x :: xs => xs.foldl max x

/-- One line of the conformance report: each constructor is one `write` call of
`conformance_checking.py`, carrying its numeric payloads structurally. -/
inductive Line
  | xesNotFound (group : String)
  | importFailed (group : String)
  | logEmpty (group : String)
  | truncated (group : String) (maxTraces : ℕ)
  | groupHeader (group : String)
  | tracesInLog (n : ℕ)
  | tokenNoResults
  | tokenFitness (avg mn mx : ℚ)
  | alignFailed
  | alignNoResults
  | alignNoFitnessValues
  | alignFitness (avg mn mx : ℚ)
  | percFitting (p : ℚ)
  | worstTraces (l : List (ℕ × ℚ))
  | blank
deriving DecidableEq

/-- Python `str.upper()` on one character, for the ASCII strings the group
names are made of. -/
def asciiUpper (c : Char) : Char :=
  if 'a' ≤ c ∧ c ≤ 'z' then Char.ofNat (c.toNat - 32) else c

/-- Python `str.upper()` (the group names are ASCII). -/
def strUpper (s : String) : String := ⟨s.toList.map asciiUpper⟩

/-- The fixed text of the `write` call behind each report line (numeric payloads
elided; they are carried structurally by the constructors). -/
def Line.text : Line → String
  | .xesNotFound g => "[" ++ g ++ "] XES not found → skipping"
  | .importFailed g => "[" ++ g ++ "] Failed to import XES: "
  | .logEmpty g => "[" ++ g ++ "] Log is empty → skipping"
  | .truncated g _ => "[" ++ g ++ "] Truncated log to first  traces for alignment runtime control"
  | .groupHeader g => "--- " ++ strUpper g ++ " ---"
  | .tracesInLog _ => "Traces in log: "
  | .tokenNoResults => "Token Replay Fitness: no results"
  | .tokenFitness _ _ _ => "Token Replay Fitness: avg=, min=, max="
  | .alignFailed => "Alignment failed: "
  | .alignNoResults => "Alignment Fitness: no results (timeout or empty)"
  | .alignNoFitnessValues => "Alignment Fitness: no fitness values computed"
  | .alignFitness _ _ _ => "Alignment Fitness: avg=, min=, max="
  | .percFitting _ => "Percentage Fitting Traces: %"
  | .worstTraces _ => "Worst traces (index:fitness): "
  | .blank => ""

/-- Does a natural number occur among the numeric payloads of a report line?
(Used to check whether a count is reported anywhere.) -/
def Line.mentionsNat (n : ℕ) : Line → Bool
  | .truncated _ m => decide (m = n)
  | .tracesInLog m => decide (m = n)
  | .tokenFitness a b c => decide (a = n ∨ b = n ∨ c = n)
  | .alignFitness a b c => decide (a = n ∨ b = n ∨ c = n)
  | .percFitting p => decide (p = n)
  | .worstTraces l => l.any (fun x => decide (x.1 = n) || decide (x.2 = (n : ℚ)))
  | _ => false

/-- Contiguous-sublist test on character lists, checked at the head position. -/
def subAt : List Char → List Char → Bool
  | [], _ => true
  | _ :: _, [] => false
  | a :: as, b :: bs => decide (a = b) && subAt as bs

/-- Contiguous-sublist test on character lists, at any position. -/
def listContainsSub (needle : List Char) : List Char → Bool
  | [] => subAt needle []
  | b :: bs => subAt needle (b :: bs) || listContainsSub needle bs

/-- Substring test on strings. -/
def strContains (needle hay : String) : Bool :=
  listContainsSub needle.toList hay.toList

/-- Does any line of a report mention the given word in its fixed text? -/
def reportMentions (w : String) (ls : List Line) : Bool :=
  ls.any (fun l => strContains w l.text)

/-- `ConformanceChecker.token_replay_fitness` (lines 96–107): extract
`trace_fitness` of every result, report `no results` on the empty list, and
otherwise report average, min and max. -/
def token_replay_fitness (results : List TRResult) : List Line :=
  let fitness := results.map TRResult.trace_fitness
  if fitness = [] then [Line.tokenNoResults]
  else
    let avg_fit := fitness.sum / (fitness.length : ℚ)
    [Line.tokenFitness avg_fit (pyMin fitness) (pyMax fitness)]

/-- Order of the Python `sorted(enumerate(fitness_values), key=lambda x: x[1])`
call (line 137): by fitness value; Python's sort is stable. -/
def pairLe (x y : ℕ × ℚ) : Prop := x.2 ≤ y.2

instance : DecidableRel pairLe :=
fun x y => inferInstanceAs (Decidable (x.2 ≤ y.2))

/-- `ConformanceChecker.alignment_fitness` (lines 109–148) after the external
`alignments.apply` call, whose outcome (an exception, or the result list) is the
argument. -/
def alignment_fitness (res : Except String (List AlignRes)) : List Line :=
  match res with
  | .error _ => [Line.alignFailed]
  | .ok align_res =>
    if align_res = [] then [Line.alignNoResults]
    else
      let fitness_values := fitnessValues align_res
      if fitness_values = [] then [Line.alignNoFitnessValues]
      else
        let avg_fit := fitness_values.sum / (fitness_values.length : ℚ)
        let fit_count := (fitness_values.filter (fun f => 1 - FITNESS_FIT_EPS ≤ f)).length
        let perc_fitting := 100 * (fit_count : ℚ) / (fitness_values.length : ℚ)
        let fitness_sorted := List.insertionSort pairLe fitness_values.enum
        let worst_examples := fitness_sorted.take (min 3 fitness_sorted.length)
        [Line.alignFitness avg_fit (pyMin fitness_values) (pyMax fitness_values),
         Line.percFitting perc_fitting,
         Line.worstTraces worst_examples]

/-- The reported alignment aggregate numbers (avg, min, max, percent fitting),
`none` when the code reports no aggregate line; payloads computed exactly as in
lines 133–135. -/
def alignAggregates (rs : List AlignRes) : Option (ℚ × ℚ × ℚ × ℚ) :=
  let fv := fitnessValues rs
  if fv = [] then none
  else
    some (fv.sum / (fv.length : ℚ), pyMin fv, pyMax fv,
      100 * (((fv.filter (fun f => 1 - FITNESS_FIT_EPS ≤ f)).length : ℚ) / (fv.length : ℚ)))

/-- State of one group's log file as observed by `ConformanceChecker.run`:
missing on disk, import raised, or successfully imported with the given traces. -/
inductive GroupData (α : Type)
  | missing
  | importError
  | ok (log : List α)
deriving DecidableEq

/-- The loop body of `ConformanceChecker.run` (lines 65–94) for a single group.
`tr` and `al` model the external `token_replay.apply` and `alignments.apply`
calls on whatever log is handed to them. -/
def processGroup {α : Type} (tr : List α → List TRResult)
    (al : List α → Except String (List AlignRes))
    (group : String) (gd : GroupData α) : List Line :=
  match gd with
  | .missing => [Line.xesNotFound group]
  | .importError => [Line.importFailed group]
  | .ok log0 =>
    if log0.length = 0 then [Line.logEmpty group]
    else
      let log := if ALIGNMENT_MAX_TRACES < log0.length
        then log0.take ALIGNMENT_MAX_TRACES else log0
      let note := if ALIGNMENT_MAX_TRACES < log0.length
        then [Line.truncated group ALIGNMENT_MAX_TRACES] else []
      note ++ Line.groupHeader group :: Line.tracesInLog log.length ::
        (token_replay_fitness (tr log) ++ alignment_fitness (al log) ++ [Line.blank])

/-- `ConformanceChecker.run` (lines 64–94): iterate over the groups in order,
appending each group's report lines. -/
def ConformanceChecker.run {α : Type} (tr : List α → List TRResult)
    (al : List α → Except String (List AlignRes)) :
    List (String × GroupData α) → List Line
  | [] => []
  | (g, gd) :: rest => processGroup tr al g gd ++ ConformanceChecker.run tr al rest

/-- The single diagnostic line `run` writes for a group whose processing fails
before any metric is computed (file missing, import error, empty log). -/
def failLine {α : Type} (g : String) : GroupData α → Line
  | .missing => Line.xesNotFound g
  | .importError => Line.importFailed g
  | .ok _ => Line.logEmpty g

/- ========================================================================
   Part 2: embedding of src/src/data_preparation.py
   ======================================================================== -/

/-- A calendar date as carried by a pandas `Timestamp` (`grade_date`); only the
fields the embedded code reads. A real `Timestamp` always has
`1 ≤ month ≤ 12`; theorems that depend on this carry it as a hypothesis. -/
structure Date where
  year : ℤ
  month : ℕ
  day : ℕ
deriving DecidableEq

/-- The value of the `"Semester"` column: the three distinct string shapes
produced by `semester_from_date` (`f"Spring {y}"`, `f"Autumn {y}"`,
`"Unknown"`), as a structured datatype. -/
inductive Semester
  | spring (y : ℤ)
  | autumn (y : ℤ)
  | unknown
deriving DecidableEq

namespace DataPreparer

/-- `semester_from_date` (data_preparation.py lines 181–193): `None`/`NaT`
timestamps map to `Unknown`; months 2–7 to `Spring y`; months 8–12 to
`Autumn y`; January to `Autumn (y-1)`; anything else to `Unknown`. -/
def semester_from_date : Option Date → Semester
  | none => Semester.unknown
  | some t =>
    if t.month ∈ ([2, 3, 4, 5, 6, 7] : List ℕ) then Semester.spring t.year
    else if t.month ∈ ([8, 9, 10, 11, 12] : List ℕ) then Semester.autumn t.year
    else if t.month = 1 then Semester.autumn (t.year - 1)
    else Semester.unknown

/-- `semester_sort_key` (lines 209–221), on the structured semester values the
pipeline produces. The regex `(Spring|Autumn)\s+([12]\d{3})` matches exactly
the years whose decimal form is four digits starting with 1 or 2, i.e.
`1000 ≤ y ≤ 2999` (pandas timestamps span 1677–2262, so the fallback branch is
only ever reached by `Unknown`); `season_order` maps Spring to 1 and Autumn
to 2, and a non-matching string falls through to `(9999, 99)` since `"Unknown"`
contains no year either. -/
def semester_sort_key : Semester → ℤ × ℕ
  | .spring y => if 1000 ≤ y ∧ y ≤ 2999 then (y, 1) else (9999, 99)
  | .autumn y => if 1000 ≤ y ∧ y ≤ 2999 then (y, 2) else (9999, 99)
  | .unknown => (9999, 99)

/-- One row of the prepared dataframe, with the columns the embedded code reads
(`student_id`, `course_code`, `grade_date`, `Semester`). -/
structure Row where
  student_id : String
  course_code : String
  grade_date : Option Date
  semester : Semester
deriving DecidableEq

/-- `row_sort_key` (lines 223–228): rows with a date sort by
`(year, month, 0)`; rows without one fall back to the semester key with
marker 1. -/
def row_sort_key (r : Row) : ℤ × ℕ × ℕ :=
  match r.grade_date with
  | some d => (d.year, d.month, 0)
  | none =>
    let k := semester_sort_key r.semester
    (k.1, k.2, 1)

/-- Lexicographic order on the 3-tuples produced by `row_sort_key` (Python
compares tuples lexicographically). -/
def keyLe (a b : ℤ × ℕ × ℕ) : Prop :=
  a.1 < b.1 ∨ (a.1 = b.1 ∧ (a.2.1 < b.2.1 ∨ (a.2.1 = b.2.1 ∧ a.2.2 ≤ b.2.2)))

instance : DecidableRel keyLe :=
fun a b => inferInstanceAs (Decidable (_ ∨ _))

/-- Row order used by `df.sort_values("_key")`. -/
def rowLe (r s : Row) : Prop := keyLe (row_sort_key r) (row_sort_key s)

instance : DecidableRel rowLe :=
fun r s => inferInstanceAs (Decidable (keyLe _ _))

/-- `_sort_chronologically` (lines 208–242): sort the whole dataframe by the
row key. (`sort_values` sorts by the key column; the embedding uses a stable
comparison sort.) -/
def sort_chronologically (rows : List Row) : List Row :=
  List.insertionSort rowLe rows

/-- Full-timestamp order on dates: (year, month, day) lexicographically. -/
def dateLexB (d1 d2 : Date) : Bool :=
  decide (d1.year < d2.year ∨ (d1.year = d2.year ∧
    (d1.month < d2.month ∨ (d1.month = d2.month ∧ d1.day ≤ d2.day))))

/-- The property the claim asserts of adjacent rows of one case: full-timestamp
order whenever both rows carry a date. -/
def tsOrdered (r s : Row) : Prop :=
  (match r.grade_date, s.grade_date with
   | some d1, some d2 => dateLexB d1 d2
   | _, _ => true) = true

instance : DecidableRel tsOrdered :=
fun _ _ => inferInstanceAs (Decidable (_ = true))

/-- `Series.unique()` / first-occurrence-order deduplication. -/
def uniqueInOrder (l : List String) : List String :=
  l.foldl (fun acc x => if x ∈ acc then acc else acc ++ [x]) []

/-- Modelled from the spec: `numpy.random`'s seeded global generator (external
library, not under src/). The spec's determinism note only relies on the
generator being a deterministic function of its seeded state, which any
concrete function realises; drawing `k` distinct items from `xs` is modelled as
taking `k` items after a state-dependent rotation. -/
def npRandomChoice (state : ℕ) (xs : List String) (k : ℕ) : List String :=
  let r := state % (xs.length + 1)
  (xs.drop r ++ xs.take r).take k

/-- config.py line 43: `SAMPLE_FRACTION = 0.075`. -/
def SAMPLE_FRACTION : ℚ := 75 / 1000

/-- The sampling step of `_save_outputs` (lines 341–349): collect the unique
student ids, reset the generator with the fixed seed 42 (`np.random.seed(42)`
discards whatever state `ambient` the generator had), draw
`max(1, int(n_students * sample_fraction))` students without replacement, and
keep the rows of the sampled students. -/
def save_outputs_sample (rows : List Row) (ambient : ℕ) : List Row :=
  let unique_students := uniqueInOrder (rows.map Row.student_id)
  let state := 42
  let sample_size := max 1 (Int.toNat (Int.floor ((unique_students.length : ℚ) * SAMPLE_FRACTION)))
  let sampled_students := npRandomChoice state unique_students sample_size
  rows.filter (fun r => decide (r.student_id ∈ sampled_students))

/-- `_convert_to_event_log` / pm4py `TO_EVENT_LOG` conversion: one case per
student id (in first-occurrence order), whose trace is the row-order sequence
of course codes (`concept:name`). -/
def tracesOf (rows : List Row) : List (List String) :=
  (uniqueInOrder (rows.map Row.student_id)).map
    (fun sid => (rows.filter (fun r => decide (r.student_id = sid))).map Row.course_code)

end DataPreparer

/- ========================================================================
   Part 3: embedding of src/src/performance_analysis.py (group sampling)
   ======================================================================== -/

namespace PerformanceAnalyzer

/-- performance_analysis.py line 62/92: `random_seed: int = 42`,
`self.rng = np.random.RandomState(self.random_seed)` — the analyzer's private
generator is created from the fixed default seed, discarding any ambient
randomness. -/
def random_seed : ℕ := 42

/-- The per-group sampling of `_export_groups_and_models` (lines 249–255):
when a group has more than `max_students_per_group` students, draw that many
with the analyzer's fixed-seed generator, else keep them all. -/
def group_sample (student_ids : List String) (max_students_per_group : ℕ)
    (ambient : ℕ) : List String :=
  if max_students_per_group < student_ids.length then
    DataPreparer.npRandomChoice random_seed student_ids max_students_per_group
  else student_ids

end PerformanceAnalyzer

/- ========================================================================
   Part 4: the Discovery Engine (spec §4.2)
   ======================================================================== -/

namespace Discovery

/-- A trace: the ordered activity labels of one case. -/
abbrev Trace := List String

/-- An event log, as handed to discovery: a list of traces. -/
abbrev Log := List Trace

/-- Activities present in a (sub-)log, in first-appearance order. -/
def activities (log : Log) : List String :=
  DataPreparer.uniqueInOrder log.join

/-- Is activity `a` immediately followed by activity `b` somewhere in a trace? -/
def directlyFollowsIn : Trace → String → String → Bool
  | [], _, _ => false
  | [_], _, _ => false
  | x :: y :: rest, a, b =>
    (decide (x = a) && decide (y = b)) || directlyFollowsIn (y :: rest) a b

/-- Modelled from the spec: edge `a→b` of the directly-follows graph (§4.2
step 1; the discovery engine itself lives in pm4py, not under src/). -/
def dfEdge (log : Log) (a b : String) : Bool :=
  log.any (fun t => directlyFollowsIn t a b)

/-- Modelled from the spec: DFG edge weight = number of cases in which `a` is
immediately followed by `b` (§4.2 step 1). -/
def dfWeight (log : Log) (a b : String) : ℕ :=
  (log.filter (fun t => directlyFollowsIn t a b)).length

/-- First activities of the cases of a log. -/
def startActivities (log : Log) : List String :=
  DataPreparer.uniqueInOrder (log.filterMap List.head?)

/-- Last activities of the cases of a log. -/
def endActivities (log : Log) : List String :=
  DataPreparer.uniqueInOrder (log.filterMap List.getLast?)

/-- The activities of `acts` selected by the bits of `mask`. -/
def maskPart (acts : List String) (mask : ℕ) : List String :=
  (acts.enum.filter (fun p => mask.testBit p.1)).map Prod.snd

/-- The complement part of `maskPart`. -/
def maskCoPart (acts : List String) (mask : ℕ) : List String :=
  (acts.enum.filter (fun p => !mask.testBit p.1)).map Prod.snd

/-- All bipartitions of the activity set into two non-empty parts, enumerated
in a fixed (mask-ascending) order — the deterministic tie-break of §4.2. -/
def bipartitions (acts : List String) : List (List String × List String) :=
  (List.range (2 ^ acts.length)).filterMap (fun mask =>
    let A := maskPart acts mask
    let B := maskCoPart acts mask
    if A = [] ∨ B = [] then none else some (A, B))

/-- Modelled from the spec: exclusive-choice cut test — no DFG edges between
the parts in either direction (§4.2 step 2). -/
def xorTest (log : Log) (A B : List String) : Bool :=
  A.all (fun a => B.all (fun b => !dfEdge log a b && !dfEdge log b a))

/-- Modelled from the spec: sequence cut test — no back-edges from the second
part to the first (§4.2 step 2). -/
def seqTest (log : Log) (A B : List String) : Bool :=
  A.all (fun a => B.all (fun b => !dfEdge log b a))

/-- Modelled from the spec: parallel cut test — DFG edges in both directions
between every pair of activities in different parts (§4.2 step 2). -/
def parTest (log : Log) (A B : List String) : Bool :=
  A.all (fun a => B.all (fun b => dfEdge log a b && dfEdge log b a))

/-- Modelled from the spec: loop cut test — `A` is the body (it holds every
start and end activity), and the redo part `B` connects back only through the
designated redo edges: edges from `B` enter `A` only at start activities, and
edges into `B` leave `A` only from end activities (§4.2 step 2). -/
def loopTest (log : Log) (A B : List String) : Bool :=
  (startActivities log).all (fun a => decide (a ∈ A)) &&
  (endActivities log).all (fun a => decide (a ∈ A)) &&
  B.all (fun b => A.all (fun a => !dfEdge log b a || decide (a ∈ startActivities log))) &&
  A.all (fun a => B.all (fun b => !dfEdge log a b || decide (a ∈ endActivities log)))

/-- A cut of the activity set (§4.2 step 2; §9's closed enumeration). -/
inductive Cut
  | xor (A B : List String)
  | seq (A B : List String)
  | par (A B : List String)
  | loop (A B : List String)
deriving DecidableEq

/-- First bipartition (in the fixed enumeration order) passing a given test. -/
def findCutOf (test : Log → List String → List String → Bool)
    (log : Log) (acts : List String) : Option (List String × List String) :=
  (bipartitions acts).find? (fun p => test log p.1 p.2)

/-- Modelled from the spec: try the cut types in the fixed priority order
exclusive-choice > sequence > parallel > loop, taking the first that applies
(§4.2 step 2, §9). -/
def findCut (log : Log) (acts : List String) : Option Cut :=
  match findCutOf xorTest log acts with
  | some p => some (Cut.xor p.1 p.2)
  | none =>
    match findCutOf seqTest log acts with
    | some p => some (Cut.seq p.1 p.2)
    | none =>
      match findCutOf parTest log acts with
      | some p => some (Cut.par p.1 p.2)
      | none =>
        match findCutOf loopTest log acts with
        | some p => some (Cut.loop p.1 p.2)
        | none => none

/-- Projection of a trace onto the activities of one part, preserving order. -/
def projectTrace (part : List String) (t : Trace) : Trace :=
  t.filter (fun a => decide (a ∈ part))

/-- Projection of a log onto one part (sequence/parallel cuts, §4.2 step 3). -/
def projectLog (part : List String) (log : Log) : Log :=
  log.map (projectTrace part)

/-- Exclusive-choice projection: the cases that fall entirely inside a part
(§4.2 step 3). -/
def xorProject (part : List String) (log : Log) : Log :=
  log.filter (fun t => t.all (fun a => decide (a ∈ part)))

/-- Maximal runs of a trace, each tagged with whether it lies inside `A`. -/
def runsBy (A : List String) : Trace → List (Bool × Trace)
  | [] => []
  | x :: xs =>
    let b := decide (x ∈ A)
    match runsBy A xs with
    | [] => [(b, [x])]
    | (b2, run) :: rest =>
      if b = b2 then (b2, x :: run) :: rest else (b, [x]) :: (b2, run) :: rest

/-- Loop projection: the maximal body (`which = true`) or redo (`which = false`)
segments of every case (§4.2 step 3). -/
def loopSegments (A : List String) (which : Bool) (log : Log) : Log :=
  log.bind (fun t => ((runsBy A t).filter (fun p => p.1 = which)).map Prod.snd)

/-- A Petri-net fragment built between two boundary places: fresh places,
transitions (silent = no label) and arcs, all identified by numbers. -/
structure Frag where
  places : List ℕ
  transitions : List (ℕ × Option String)
  arcs : List (ℕ × ℕ)
deriving DecidableEq

/-- Union of two fragments. -/
def Frag.union (f g : Frag) : Frag :=
  ⟨f.places ++ g.places, f.transitions ++ g.transitions, f.arcs ++ g.arcs⟩

/-- A Petri net with initial and final markings (spec §3). -/
structure PetriNet where
  places : List ℕ
  transitions : List (ℕ × Option String)
  arcs : List (ℕ × ℕ)
  im : List (ℕ × ℕ)
  fm : List (ℕ × ℕ)
deriving DecidableEq

/-- Modelled from the spec: the flower-model fallback — one place with every
activity a self-looping transition around it, reached and left by silent
routing transitions (§4.2 step 5). -/
def flowerFrag (acts : List String) (entry ex counter : ℕ) : Frag × ℕ :=
  let p := counter
  let tIn := counter + 1
  let tOut := counter + 2
  let base : Frag :=
    ⟨[p], [(tIn, none), (tOut, none)], [(entry, tIn), (tIn, p), (p, tOut), (tOut, ex)]⟩
  acts.foldl
    (fun acc a =>
      let t := acc.2
      (⟨acc.1.places, (t, some a) :: acc.1.transitions, (p, t) :: (t, p) :: acc.1.arcs⟩, t + 1))
    (base, counter + 3)

/-- Modelled from the spec: the recursive inductive-mining step of §4.2 (the
actual implementation lives in pm4py's `discover_petri_net_inductive`, not
under src/). Builds a fragment between the boundary places `entry` and `ex`,
threading a fresh-identifier counter; `fuel` bounds the recursion depth (each
recursive call is on a proper part of the activity set, so the initial fuel of
one per activity suffices, and exhausted fuel falls back to the flower model,
matching the guaranteed-termination note of §4.2 step 5). -/
def mine : ℕ → Log → ℕ → ℕ → ℕ → Frag × ℕ
  | 0, log, entry, ex, counter => flowerFrag (activities log) entry ex counter
  | fuel + 1, log, entry, ex, counter =>
    match activities log with
    | [] => (⟨[], [(counter, none)], [(entry, counter), (counter, ex)]⟩, counter + 1)
    | [a] => (⟨[], [(counter, some a)], [(entry, counter), (counter, ex)]⟩, counter + 1)
    | a :: b :: rest =>
      let acts := a :: b :: rest
      match findCut log acts with
      | some (Cut.xor A B) =>
        let r1 := mine fuel (xorProject A log) entry ex counter
        let r2 := mine fuel (xorProject B log) entry ex r1.2
        (r1.1.union r2.1, r2.2)
      | some (Cut.seq A B) =>
        let m := counter
        let r1 := mine fuel (projectLog A log) entry m (counter + 1)
        let r2 := mine fuel (projectLog B log) m ex r1.2
        let u := r1.1.union r2.1
        (⟨m :: u.places, u.transitions, u.arcs⟩, r2.2)
      | some (Cut.par A B) =>
        let tf := counter
        let tj := counter + 1
        let pa1 := counter + 2
        let pa2 := counter + 3
        let pb1 := counter + 4
        let pb2 := counter + 5
        let r1 := mine fuel (projectLog A log) pa1 pa2 (counter + 6)
        let r2 := mine fuel (projectLog B log) pb1 pb2 r1.2
        let u := r1.1.union r2.1
        (⟨[pa1, pa2, pb1, pb2] ++ u.places,
          (tf, none) :: (tj, none) :: u.transitions,
          (entry, tf) :: (tf, pa1) :: (tf, pb1) :: (pa2, tj) :: (pb2, tj) :: (tj, ex) :: u.arcs⟩,
         r2.2)
      | some (Cut.loop A B) =>
        let m := counter
        let tEx := counter + 1
        let r1 := mine fuel (loopSegments A true log) entry m (counter + 2)
        let r2 := mine fuel (loopSegments A false log) m entry r1.2
        let u := r1.1.union r2.1
        (⟨m :: u.places, (tEx, none) :: u.transitions, (m, tEx) :: (tEx, ex) :: u.arcs⟩,
         r2.2)
      | none => flowerFrag acts entry ex counter

/-- Modelled from the spec: `discover_petri_net_inductive` — the Discovery
Engine entry point called by `ProcessDiscovery._run_inductive_miner`
(process_discovery.py line 106); a function of the event log alone, with no
source of randomness (§4.2's determinism note). Place 0 is the source carrying
the initial marking, place 1 the sink carrying the final marking. -/
def discover_petri_net_inductive (log : Log) : PetriNet :=
  let r := mine ((activities log).length + 1) log 0 1 2
  ⟨0 :: 1 :: r.1.places, r.1.transitions, r.1.arcs, [(0, 1)], [(1, 1)]⟩

end Discovery

/- ========================================================================
   Part 5: concrete inputs used by counterexamples and witnesses
   ======================================================================== -/

/-- A token-replay stub producing no results. -/
def tr0 : List ℕ → List TRResult := fun _ => []

/-- An alignment stub producing an empty result list. -/
def al0 : List ℕ → Except String (List AlignRes) := fun _ => Except.ok []

/-- Alignment results with one produced fitness value and five excluded
entries (four non-dicts, one dict without a fitness value). -/
def rsC1 : List AlignRes :=
  [AlignRes.dictFitness (1/2), AlignRes.nonDict, AlignRes.nonDict,
   AlignRes.dictNoFitness, AlignRes.nonDict, AlignRes.nonDict]

/-- Token-replay results for a three-trace group. -/
def trC5 : List ℕ → List TRResult := fun _ => [⟨1⟩, ⟨1/2⟩, ⟨0⟩]

/-- Alignment results for a three-trace group, all produced. -/
def alC5 : List ℕ → Except String (List AlignRes) := fun _ =>
  Except.ok [AlignRes.dictFitness 1, AlignRes.dictFitness (1/4), AlignRes.dictFitness (1/2)]

/-- A per-trace token-replay function (trace fitness = the trace itself). -/
def trP : ℕ → TRResult := fun n => ⟨(n : ℚ)⟩

/-- A per-trace alignment function. -/
def alP : ℕ → AlignRes := fun n => AlignRes.dictFitness (n : ℚ)

/-- A row dated 2020-01-20. -/
def rowA : DataPreparer.Row := ⟨"s1", "c1", some ⟨2020, 1, 20⟩, Semester.autumn 2019⟩

/-- A row of the same case dated 2020-01-05: same calendar month as `rowA` but
an earlier timestamp. -/
def rowB : DataPreparer.Row := ⟨"s1", "c2", some ⟨2020, 1, 5⟩, Semester.autumn 2019⟩

/-- A 21-trace log (one more than `ALIGNMENT_MAX_TRACES`). -/
def log21 : List ℕ := List.range 21

/-- A 22-trace log sharing its first 20 traces with `log21`. -/
def log21b : List ℕ := List.range 20 ++ [100, 200]

/- ========================================================================
   Part 6: helper lemmas
   ======================================================================== -/

lemma foldl_min_choice (xs : List ℚ) : ∀ x : ℚ, xs.foldl min x = x ∨ xs.foldl min x ∈ xs := by
  induction xs with
  | nil => intro x; exact Or.inl rfl
  | cons y ys ih =>
    intro x
    rw [List.foldl_cons]
    rcases ih (min x y) with h | h
    · rcases min_choice x y with hc | hc
      · exact Or.inl (by rw [h, hc])
      · exact Or.inr (by rw [h, hc]; exact List.mem_cons_self _ _)
    · exact Or.inr (List.mem_cons_of_mem _ h)

lemma foldl_min_le (xs : List ℚ) : ∀ x : ℚ, xs.foldl min x ≤ x ∧ ∀ y ∈ xs, xs.foldl min x ≤ y := by
  induction xs with
  | nil => intro x; exact ⟨le_refl x, by intro y hy; cases hy⟩
  | cons y ys ih =>
    intro x
    rw [List.foldl_cons]
    obtain ⟨h1, h2⟩ := ih (min x y)
    refine ⟨le_trans h1 (min_le_left _ _), ?_⟩
    intro z hz
    rcases List.mem_cons.1 hz with rfl | hz
    · exact le_trans h1 (min_le_right _ _)
    · exact h2 z hz

lemma foldl_max_choice (xs : List ℚ) : ∀ x : ℚ, xs.foldl max x = x ∨ xs.foldl max x ∈ xs := by
  induction xs with
  | nil => intro x; exact Or.inl rfl
  | cons y ys ih =>
    intro x
    rw [List.foldl_cons]
    rcases ih (max x y) with h | h
    · rcases max_choice x y with hc | hc
      · exact Or.inl (by rw [h, hc])
      · exact Or.inr (by rw [h, hc]; exact List.mem_cons_self _ _)
    · exact Or.inr (List.mem_cons_of_mem _ h)

lemma foldl_max_le (xs : List ℚ) : ∀ x : ℚ, x ≤ xs.foldl max x ∧ ∀ y ∈ xs, y ≤ xs.foldl max x := by
  induction xs with
  | nil => intro x; exact ⟨le_refl x, by intro y hy; cases hy⟩
  | cons y ys ih =>
    intro x
    rw [List.foldl_cons]
    obtain ⟨h1, h2⟩ := ih (max x y)
    refine ⟨le_trans (le_max_left _ _) h1, ?_⟩
    intro z hz
    rcases List.mem_cons.1 hz with rfl | hz
    · exact le_trans (le_max_right _ _) h1
    · exact h2 z hz

/-- `pyMin` of a non-empty list is a member and a lower bound. -/
lemma pyMin_cons (x : ℚ) (xs : List ℚ) : pyMin (x :: xs) = xs.foldl min x := rfl

lemma pyMax_cons (x : ℚ) (xs : List ℚ) : pyMax (x :: xs) = xs.foldl max x := rfl

lemma pyMin_spec (l : List ℚ) (h : l ≠ []) : pyMin l ∈ l ∧ ∀ y ∈ l, pyMin l ≤ y := by
  match l with
  | [] => exact absurd rfl h
  | x :: xs =>
    rw [pyMin_cons]
    constructor
    · rcases foldl_min_choice xs x with hc | hc
      · rw [hc]; exact List.mem_cons_self _ _
      · exact List.mem_cons_of_mem _ hc
    · intro y hy
      rcases List.mem_cons.1 hy with rfl | hy
      · exact (foldl_min_le xs y).1
      · exact (foldl_min_le xs x).2 y hy

/-- `pyMax` of a non-empty list is a member and an upper bound. -/
lemma pyMax_spec (l : List ℚ) (h : l ≠ []) : pyMax l ∈ l ∧ ∀ y ∈ l, y ≤ pyMax l := by
  match l with
  | [] => exact absurd rfl h
  | x :: xs =>
    rw [pyMax_cons]
    constructor
    · rcases foldl_max_choice xs x with hc | hc
      · rw [hc]; exact List.mem_cons_self _ _
      · exact List.mem_cons_of_mem _ hc
    · intro y hy
      rcases List.mem_cons.1 hy with rfl | hy
      · exact (foldl_max_le xs y).1
      · exact (foldl_max_le xs x).2 y hy

/-- `pyMin` only depends on the multiset of values. -/
lemma pyMin_perm {l l' : List ℚ} (h : l.Perm l') : pyMin l = pyMin l' := by
  rcases eq_or_ne l [] with rfl | hne
  · have h' : l' = [] := h.symm.eq_nil
    rw [h']
  · have hne' : l' ≠ [] := fun e => hne (by rw [e] at h; exact h.eq_nil)
    obtain ⟨m1, b1⟩ := pyMin_spec l hne
    obtain ⟨m2, b2⟩ := pyMin_spec l' hne'
    exact le_antisymm (b1 _ (h.mem_iff.2 m2)) (b2 _ (h.mem_iff.1 m1))

/-- `pyMax` only depends on the multiset of values. -/
lemma pyMax_perm {l l' : List ℚ} (h : l.Perm l') : pyMax l = pyMax l' := by
  rcases eq_or_ne l [] with rfl | hne
  · have h' : l' = [] := h.symm.eq_nil
    rw [h']
  · have hne' : l' ≠ [] := fun e => hne (by rw [e] at h; exact h.eq_nil)
    obtain ⟨m1, b1⟩ := pyMax_spec l hne
    obtain ⟨m2, b2⟩ := pyMax_spec l' hne'
    exact le_antisymm (b2 _ (h.mem_iff.1 m1)) (b1 _ (h.mem_iff.2 m2))

/-- `run` distributes over concatenation of the group list. -/
lemma run_append {α : Type} (tr : List α → List TRResult)
    (al : List α → Except String (List AlignRes))
    (gs1 gs2 : List (String × GroupData α)) :
    ConformanceChecker.run tr al (gs1 ++ gs2) =
      ConformanceChecker.run tr al gs1 ++ ConformanceChecker.run tr al gs2 := by
  induction gs1 with
  | nil => simp [ConformanceChecker.run]
  | cons g gs ih =>
    rcases g with ⟨name, gd⟩
    simp [ConformanceChecker.run, ih]

/-- Unfolding of `alignment_fitness` on a produced, non-degenerate result
list. -/
lemma alignment_fitness_ok (rs : List AlignRes) (h : rs ≠ [])
    (hfv : fitnessValues rs ≠ []) :
    alignment_fitness (Except.ok rs) =
      [Line.alignFitness ((fitnessValues rs).sum / (((fitnessValues rs).length : ℚ)))
         (pyMin (fitnessValues rs)) (pyMax (fitnessValues rs)),
       Line.percFitting (100 * ((((fitnessValues rs).filter (fun f => 1 - FITNESS_FIT_EPS ≤ f)).length : ℚ)) / (((fitnessValues rs).length : ℚ))),
       Line.worstTraces ((List.insertionSort pairLe (fitnessValues rs).enum).take
         (min 3 (List.insertionSort pairLe (fitnessValues rs).enum).length))] := by
  unfold alignment_fitness
  simp [h, hfv]

/-- `fitnessValues` respects permutation of the result list. -/
lemma fitnessValues_perm {rs rs' : List AlignRes} (h : rs.Perm rs') :
    (fitnessValues rs).Perm (fitnessValues rs') :=
  (h.filter _).filterMap _

/- ========================================================================
   Part 7: the claims
   ======================================================================== -/

/-- C1 (amended): per-trace alignment results that are not produced (not a
result dict, or a dict without a fitness value) are excluded from the reported
alignment aggregates rather than crashing the run or contributing partial
credit — the report depends only on the produced fitness values. (The claim's
further assertion that such exclusions are recorded with a count is refuted by
`alignment_exclusion_uncounted`.) -/
theorem alignment_excluded_results_ignored (rs rs' : List AlignRes)
    (hfv : fitnessValues rs = fitnessValues rs') (hne : fitnessValues rs ≠ []) :
    alignment_fitness (Except.ok rs) = alignment_fitness (Except.ok rs') := by
  have h1 : rs ≠ [] := by
    intro e; apply hne; rw [e]; rfl
  have h2 : rs' ≠ [] := by
    intro e; apply hne; rw [hfv, e]; rfl
  rw [alignment_fitness_ok rs h1 hne, alignment_fitness_ok rs' h2 (hfv ▸ hne), hfv]

/-- Witness for C1's theorem: one timed-out (non-dict) entry next to one
produced result leaves the report unchanged. -/
theorem alignment_excluded_results_ignored_witness :
    fitnessValues [AlignRes.nonDict, AlignRes.dictFitness 1] =
      fitnessValues [AlignRes.dictFitness 1] ∧
    fitnessValues [AlignRes.nonDict, AlignRes.dictFitness 1] ≠ [] ∧
    alignment_fitness (Except.ok [AlignRes.nonDict, AlignRes.dictFitness 1]) =
      alignment_fitness (Except.ok [AlignRes.dictFitness 1]) :=
  ⟨by decide, by decide,
   alignment_excluded_results_ignored _ _ (by decide) (by decide)⟩

/-- C1 counterexample: on `rsC1` (five excluded results, one produced value of
1/2) the whole report is the three aggregate lines, and the exclusion count 5
appears in no line of it — exclusions are not recorded with a count. -/
theorem alignment_exclusion_uncounted :
    alignment_fitness (Except.ok rsC1) =
      [Line.alignFitness (1/2) (1/2) (1/2), Line.percFitting 0,
       Line.worstTraces [(0, 1/2)]] ∧
    excludedCount rsC1 = 5 ∧
    (alignment_fitness (Except.ok rsC1)).all (fun l => !(Line.mentionsNat 5 l)) = true := by
  have hfv : fitnessValues rsC1 = [1/2] := rfl
  have h1 : rsC1 ≠ [] := by simp [rsC1]
  have h2 : fitnessValues rsC1 ≠ [] := by rw [hfv]; simp
  have hrep : alignment_fitness (Except.ok rsC1) =
      [Line.alignFitness (1/2) (1/2) (1/2), Line.percFitting 0,
       Line.worstTraces [(0, 1/2)]] := by
    rw [alignment_fitness_ok rsC1 h1 h2, hfv]
    have hcond : ¬((1:ℚ) - FITNESS_FIT_EPS ≤ 1/2) := by
      rw [FITNESS_FIT_EPS]; norm_num
    have hcond2 : ¬((1:ℚ) ≤ 1/2 + FITNESS_FIT_EPS) := by
      rw [FITNESS_FIT_EPS]; norm_num
    norm_num [pyMin, pyMax, List.insertionSort, List.orderedInsert, List.enum,
      List.enumFrom, List.filter, hcond, hcond2]
  refine ⟨hrep, by decide, ?_⟩
  rw [hrep]
  simp [Line.mentionsNat]
  norm_num

/-- C2: for every non-empty list of per-trace token-replay results, the
reported aggregate token-replay fitness is the arithmetic mean of the
`trace_fitness` values of exactly the traces with a defined fitness (every
produced token-replay result carries one), and the reported min and max are
the minimum and maximum of those same values. -/
theorem token_replay_aggregates (rs : List TRResult) (h : rs ≠ []) :
    ∃ avg mn mx,
      token_replay_fitness rs = [Line.tokenFitness avg mn mx] ∧
      avg = (rs.map TRResult.trace_fitness).sum / ((rs.map TRResult.trace_fitness).length : ℚ) ∧
      mn ∈ rs.map TRResult.trace_fitness ∧
      (∀ x ∈ rs.map TRResult.trace_fitness, mn ≤ x) ∧
      mx ∈ rs.map TRResult.trace_fitness ∧
      (∀ x ∈ rs.map TRResult.trace_fitness, x ≤ mx) := by
  have hne : rs.map TRResult.trace_fitness ≠ [] := by
    simpa using h
  refine ⟨_, _, _, ?_, rfl, (pyMin_spec _ hne).1, (pyMin_spec _ hne).2,
    (pyMax_spec _ hne).1, (pyMax_spec _ hne).2⟩
  unfold token_replay_fitness
  simp [hne]

/-- Witness for C2 at a concrete two-trace result list. -/
theorem token_replay_aggregates_witness :
    ([⟨1⟩, ⟨1/2⟩] : List TRResult) ≠ [] ∧
    (∃ avg mn mx,
      token_replay_fitness [⟨1⟩, ⟨1/2⟩] = [Line.tokenFitness avg mn mx] ∧
      avg = (([⟨1⟩, ⟨1/2⟩] : List TRResult).map TRResult.trace_fitness).sum /
        ((([⟨1⟩, ⟨1/2⟩] : List TRResult).map TRResult.trace_fitness).length : ℚ) ∧
      mn ∈ ([⟨1⟩, ⟨1/2⟩] : List TRResult).map TRResult.trace_fitness ∧
      (∀ x ∈ ([⟨1⟩, ⟨1/2⟩] : List TRResult).map TRResult.trace_fitness, mn ≤ x) ∧
      mx ∈ ([⟨1⟩, ⟨1/2⟩] : List TRResult).map TRResult.trace_fitness ∧
      (∀ x ∈ ([⟨1⟩, ⟨1/2⟩] : List TRResult).map TRResult.trace_fitness, x ≤ mx)) :=
  ⟨by decide, token_replay_aggregates _ (by decide)⟩

/-- C3 counterexample: a zero-case log is not fatal for the run — the group is
skipped with the `Log is empty → skipping` diagnostic and the next group is
still processed (its header and metrics appear after the diagnostic). -/
theorem empty_log_run_continues :
    ConformanceChecker.run tr0 al0
        [("g1", GroupData.ok ([] : List ℕ)), ("g2", GroupData.ok [0])] =
      [Line.logEmpty "g1", Line.groupHeader "g2", Line.tracesInLog 1,
       Line.tokenNoResults, Line.alignNoResults, Line.blank] ∧
    Line.groupHeader "g2" ∈ ConformanceChecker.run tr0 al0
        [("g1", GroupData.ok ([] : List ℕ)), ("g2", GroupData.ok [0])] := by
  refine ⟨by decide, by decide⟩

/-- C3 (amended): a log with zero cases is skipped for that group only, with
the empty-log diagnostic written to the report, and the run continues with the
remaining groups unchanged. -/
theorem empty_log_group_skipped {α : Type} (tr : List α → List TRResult)
    (al : List α → Except String (List AlignRes)) (g : String)
    (gs : List (String × GroupData α)) :
    ConformanceChecker.run tr al ((g, GroupData.ok []) :: gs) =
      Line.logEmpty g :: ConformanceChecker.run tr al gs := by
  simp [ConformanceChecker.run, processGroup]

/-- C4: a failure confined to one group (missing log file, import error, or
empty log) is isolated: that group contributes exactly its diagnostic line,
and every other group's report lines are exactly what they would be on their
own, before and after it. -/
theorem group_failure_isolated {α : Type} (tr : List α → List TRResult)
    (al : List α → Except String (List AlignRes))
    (gs1 gs2 : List (String × GroupData α)) (g : String) (gd : GroupData α)
    (h : gd = GroupData.missing ∨ gd = GroupData.importError ∨ gd = GroupData.ok []) :
    ConformanceChecker.run tr al (gs1 ++ (g, gd) :: gs2) =
      ConformanceChecker.run tr al gs1 ++
        failLine g gd :: ConformanceChecker.run tr al gs2 := by
  rw [run_append]
  rcases h with rfl | rfl | rfl <;> simp [ConformanceChecker.run, processGroup, failLine]

/-- Witness for C4: an import failure in the middle of three groups. -/
theorem group_failure_isolated_witness :
    ((GroupData.importError : GroupData ℕ) = GroupData.missing ∨
     (GroupData.importError : GroupData ℕ) = GroupData.importError ∨
     (GroupData.importError : GroupData ℕ) = GroupData.ok []) ∧
    ConformanceChecker.run tr0 al0
        ([("a", GroupData.ok [1])] ++ ("g", GroupData.importError) :: [("b", GroupData.missing)]) =
      ConformanceChecker.run tr0 al0 [("a", GroupData.ok [1])] ++
        failLine "g" (GroupData.importError : GroupData ℕ) ::
          ConformanceChecker.run tr0 al0 [("b", GroupData.missing)] :=
  ⟨by decide, group_failure_isolated tr0 al0 _ _ _ _ (by decide)⟩

/-- C5 counterexample: the complete report for a successfully processed group —
token-replay and alignment aggregates, percent fitting, worst traces by
position index — contains no precision, generalization or simplicity entry,
and identifies the worst traces by index, not by case identifier. -/
theorem report_without_quality_metrics :
    processGroup trC5 alC5 "grp" (GroupData.ok [10, 20, 30]) =
      [Line.groupHeader "grp", Line.tracesInLog 3, Line.tokenFitness (1/2) 0 1,
       Line.alignFitness (7/12) (1/4) 1, Line.percFitting (100/3),
       Line.worstTraces [(1, 1/4), (2, 1/2), (0, 1)], Line.blank] ∧
    reportMentions "Precision" (processGroup trC5 alC5 "grp" (GroupData.ok [10, 20, 30])) = false ∧
    reportMentions "precision" (processGroup trC5 alC5 "grp" (GroupData.ok [10, 20, 30])) = false ∧
    reportMentions "Generalization" (processGroup trC5 alC5 "grp" (GroupData.ok [10, 20, 30])) = false ∧
    reportMentions "generalization" (processGroup trC5 alC5 "grp" (GroupData.ok [10, 20, 30])) = false ∧
    reportMentions "Simplicity" (processGroup trC5 alC5 "grp" (GroupData.ok [10, 20, 30])) = false ∧
    reportMentions "simplicity" (processGroup trC5 alC5 "grp" (GroupData.ok [10, 20, 30])) = false := by
  have hc1 : ¬((1:ℚ) - FITNESS_FIT_EPS ≤ 1/4) := by rw [FITNESS_FIT_EPS]; norm_num
  have hc2 : ¬((1:ℚ) - FITNESS_FIT_EPS ≤ 1/2) := by rw [FITNESS_FIT_EPS]; norm_num
  have hc3 : ((1:ℚ) - FITNESS_FIT_EPS ≤ 1) := by rw [FITNESS_FIT_EPS]; norm_num
  have hfv : fitnessValues
      [AlignRes.dictFitness 1, AlignRes.dictFitness (1/4), AlignRes.dictFitness (1/2)] =
      [1, 1/4, 1/2] := rfl
  have htok : token_replay_fitness [⟨1⟩, ⟨1/2⟩, ⟨0⟩] = [Line.tokenFitness (1/2) 0 1] := by
    simp only [token_replay_fitness, List.map_cons, List.map_nil]
    rw [if_neg (by simp : ¬ ([(1:ℚ), 1/2, 0] = []))]
    norm_num [pyMin, pyMax, min_def, max_def]
  have halign : alignment_fitness (Except.ok
      [AlignRes.dictFitness 1, AlignRes.dictFitness (1/4), AlignRes.dictFitness (1/2)]) =
      [Line.alignFitness (7/12) (1/4) 1, Line.percFitting (100/3),
       Line.worstTraces [(1, 1/4), (2, 1/2), (0, 1)]] := by
    rw [alignment_fitness_ok _ (by simp) (by rw [hfv]; simp), hfv]
    norm_num [pyMin, pyMax, min_def, max_def, List.insertionSort, List.orderedInsert,
      pairLe, List.filter, List.enum, List.enumFrom, hc1, hc2, hc3]
  have hrep : processGroup trC5 alC5 "grp" (GroupData.ok [10, 20, 30]) =
      [Line.groupHeader "grp", Line.tracesInLog 3, Line.tokenFitness (1/2) 0 1,
       Line.alignFitness (7/12) (1/4) 1, Line.percFitting (100/3),
       Line.worstTraces [(1, 1/4), (2, 1/2), (0, 1)], Line.blank] := by
    simp only [processGroup, trC5, alC5]
    rw [htok, halign]
    norm_num [ALIGNMENT_MAX_TRACES]
  rw [hrep]
  refine ⟨rfl, by decide, by decide, by decide, by decide, by decide, by decide⟩

/-- C5 (amended): for every group log that yields results, the report contains
token-replay fitness (avg, min, max), alignment fitness (avg, min, max, and
the percentage of fitting traces), and a list of up to three worst-fitting
traces identified by their position index together with their fitness scores —
but no precision, generalization or simplicity, and no case identifiers
(see `report_without_quality_metrics`). -/
theorem successful_group_report_contents {α : Type} (tr : List α → List TRResult)
    (al : List α → Except String (List AlignRes)) (g : String) (log : List α)
    (avs : List AlignRes)
    (h1 : log ≠ []) (h2 : log.length ≤ ALIGNMENT_MAX_TRACES)
    (h3 : tr log ≠ []) (h4 : al log = Except.ok avs)
    (h5 : fitnessValues avs ≠ []) :
    ∃ ta tb tc aa ab ac p w,
      processGroup tr al g (GroupData.ok log) =
        [Line.groupHeader g, Line.tracesInLog log.length,
         Line.tokenFitness ta tb tc, Line.alignFitness aa ab ac,
         Line.percFitting p, Line.worstTraces w, Line.blank] ∧
      w.length = min 3 (fitnessValues avs).length := by
  have hlen : ¬ (ALIGNMENT_MAX_TRACES < log.length) := by omega
  have hne0 : ¬ (log.length = 0) := fun e => h1 (List.length_eq_zero.1 e)
  have havs : avs ≠ [] := fun e => h5 (by rw [e]; rfl)
  have hmap : (tr log).map TRResult.trace_fitness ≠ [] := by simpa using h3
  refine ⟨((tr log).map TRResult.trace_fitness).sum / (((tr log).map TRResult.trace_fitness).length : ℚ),
    pyMin ((tr log).map TRResult.trace_fitness), pyMax ((tr log).map TRResult.trace_fitness),
    (fitnessValues avs).sum / ((fitnessValues avs).length : ℚ),
    pyMin (fitnessValues avs), pyMax (fitnessValues avs),
    100 * ((((fitnessValues avs).filter (fun f => 1 - FITNESS_FIT_EPS ≤ f)).length : ℚ)) / (((fitnessValues avs).length : ℚ)),
    (List.insertionSort pairLe (fitnessValues avs).enum).take
      (min 3 (List.insertionSort pairLe (fitnessValues avs).enum).length),
    ?_, ?_⟩
  · simp [processGroup, hne0, hlen, token_replay_fitness, hmap, h4,
      alignment_fitness_ok avs havs h5]
  · rw [List.length_take]
    have hs : (List.insertionSort pairLe (fitnessValues avs).enum).length =
        (fitnessValues avs).length := by
      rw [(List.perm_insertionSort pairLe (fitnessValues avs).enum).length_eq,
        List.enum_length]
    rw [hs]
    omega

/-- Witness for C5's theorem at a concrete three-trace group. -/
theorem successful_group_report_contents_witness :
    ([10, 20, 30] : List ℕ) ≠ [] ∧
    ([10, 20, 30] : List ℕ).length ≤ ALIGNMENT_MAX_TRACES ∧
    trC5 [10, 20, 30] ≠ [] ∧
    alC5 [10, 20, 30] = Except.ok
      [AlignRes.dictFitness 1, AlignRes.dictFitness (1/4), AlignRes.dictFitness (1/2)] ∧
    fitnessValues
      [AlignRes.dictFitness 1, AlignRes.dictFitness (1/4), AlignRes.dictFitness (1/2)] ≠ [] ∧
    (∃ ta tb tc aa ab ac p w,
      processGroup trC5 alC5 "grp" (GroupData.ok [10, 20, 30]) =
        [Line.groupHeader "grp", Line.tracesInLog ([10, 20, 30] : List ℕ).length,
         Line.tokenFitness ta tb tc, Line.alignFitness aa ab ac,
         Line.percFitting p, Line.worstTraces w, Line.blank] ∧
      w.length = min 3 (fitnessValues
        [AlignRes.dictFitness 1, AlignRes.dictFitness (1/4), AlignRes.dictFitness (1/2)]).length) :=
  ⟨by decide, by decide, by decide, rfl, by decide,
   successful_group_report_contents trC5 alC5 "grp" [10, 20, 30] _
     (by decide) (by decide) (by decide) rfl (by decide)⟩

/-- C6 counterexample: two events of one case fall in the same calendar month;
after `_sort_chronologically` the event with the later timestamp (day 20)
still precedes the one with the earlier timestamp (day 5), so events of a case
are not ordered by their (full) timestamp. -/
theorem sort_ignores_day_within_month :
    DataPreparer.sort_chronologically [rowA, rowB] = [rowA, rowB] ∧
    ¬ List.Sorted DataPreparer.tsOrdered (DataPreparer.sort_chronologically [rowA, rowB]) := by
  constructor
  · decide
  · decide

instance : IsTotal DataPreparer.Row DataPreparer.rowLe :=
⟨fun r s => by
  unfold DataPreparer.rowLe DataPreparer.keyLe
  omega⟩

instance : IsTrans DataPreparer.Row DataPreparer.rowLe :=
⟨fun a b c hab hbc => by
  unfold DataPreparer.rowLe DataPreparer.keyLe at *
  omega⟩

/-- C6 (amended): `_sort_chronologically` orders the rows — hence the events
of each case — by the row key, which is the (year, month) of the timestamp
(with a semester-based fallback for missing dates); the day and time within
the month do not participate, and the output is a permutation of the input. -/
theorem sort_chronologically_key_sorted (l : List DataPreparer.Row) (sid : String) :
    List.Sorted DataPreparer.rowLe
      ((DataPreparer.sort_chronologically l).filter (fun r => decide (r.student_id = sid))) ∧
    (DataPreparer.sort_chronologically l).Perm l := by
  constructor
  · exact (List.sorted_insertionSort DataPreparer.rowLe l).filter _
  · exact List.perm_insertionSort DataPreparer.rowLe l

/-- C7: the conformance computations are permutation-invariant: permuting the
cases of the log leaves the token-replay report lines and the alignment
aggregate numbers (avg, min, max, percent fitting) unchanged — insertion order
affects report ordering only. -/
theorem conformance_aggregates_perm_invariant {α : Type} (tr : α → TRResult)
    (al : α → AlignRes) (log log' : List α) (h : log.Perm log') :
    token_replay_fitness (log.map tr) = token_replay_fitness (log'.map tr) ∧
    alignAggregates (log.map al) = alignAggregates (log'.map al) := by
  constructor
  · have hm : ((log.map tr).map TRResult.trace_fitness).Perm
        ((log'.map tr).map TRResult.trace_fitness) := (h.map tr).map _
    simp only [token_replay_fitness]
    by_cases he : (log.map tr).map TRResult.trace_fitness = []
    · have he' : (log'.map tr).map TRResult.trace_fitness = [] := by
        rw [he] at hm; exact hm.symm.eq_nil
      rw [if_pos he, if_pos he']
    · have he' : ¬ ((log'.map tr).map TRResult.trace_fitness = []) := by
        intro e; rw [e] at hm; exact he hm.eq_nil
      rw [if_neg he, if_neg he', hm.sum_eq, hm.length_eq,
        pyMin_perm hm, pyMax_perm hm]
  · have hfv : (fitnessValues (log.map al)).Perm (fitnessValues (log'.map al)) :=
      fitnessValues_perm (h.map al)
    simp only [alignAggregates]
    by_cases he : fitnessValues (log.map al) = []
    · have he' : fitnessValues (log'.map al) = [] := by
        rw [he] at hfv; exact hfv.symm.eq_nil
      rw [if_pos he, if_pos he']
    · have he' : ¬ (fitnessValues (log'.map al) = []) := by
        intro e; rw [e] at hfv; exact he hfv.eq_nil
      rw [if_neg he, if_neg he', hfv.sum_eq, hfv.length_eq,
        pyMin_perm hfv, pyMax_perm hfv,
        ((hfv.filter (fun f => decide (1 - FITNESS_FIT_EPS ≤ f))).length_eq)]

/-- Witness for C7 at a two-case log and its transposition. -/
theorem conformance_aggregates_perm_invariant_witness :
    ([0, 1] : List ℕ).Perm [1, 0] ∧
    (token_replay_fitness (([0, 1] : List ℕ).map trP) =
       token_replay_fitness (([1, 0] : List ℕ).map trP) ∧
     alignAggregates (([0, 1] : List ℕ).map alP) =
       alignAggregates (([1, 0] : List ℕ).map alP)) :=
  ⟨by decide, conformance_aggregates_perm_invariant trP alP _ _ (by decide)⟩

/-- C8: discovery is deterministic — the sampled rows fed to it do not depend
on any ambient random state (both `np.random.seed(42)` and
`RandomState(42)` fix their seeds), and the discovered Petri net is a function
of the event log alone, so two runs on the same raw rows produce the same
net. -/
theorem discovery_deterministic_runs (rows : List DataPreparer.Row) (s1 s2 : ℕ) :
    DataPreparer.save_outputs_sample rows s1 = DataPreparer.save_outputs_sample rows s2 ∧
    Discovery.discover_petri_net_inductive
        (DataPreparer.tracesOf (DataPreparer.save_outputs_sample rows s1)) =
      Discovery.discover_petri_net_inductive
        (DataPreparer.tracesOf (DataPreparer.save_outputs_sample rows s2)) ∧
    ∀ ids m, PerformanceAnalyzer.group_sample ids m s1 =
      PerformanceAnalyzer.group_sample ids m s2 :=
  ⟨rfl, rfl, fun _ _ => rfl⟩

/-- C9: a group log with more than `ALIGNMENT_MAX_TRACES` traces is truncated
to its first 20 traces after a truncation notice: both fitness computations
receive exactly the 20-trace prefix, and any two logs sharing that prefix get
identical reports — later traces never contribute. -/
theorem conformance_truncates_to_twenty {α : Type} (tr : List α → List TRResult)
    (al : List α → Except String (List AlignRes)) (g : String) (log : List α)
    (h : ALIGNMENT_MAX_TRACES < log.length) :
    processGroup tr al g (GroupData.ok log) =
      Line.truncated g ALIGNMENT_MAX_TRACES :: Line.groupHeader g ::
        Line.tracesInLog ALIGNMENT_MAX_TRACES ::
        (token_replay_fitness (tr (log.take ALIGNMENT_MAX_TRACES)) ++
         alignment_fitness (al (log.take ALIGNMENT_MAX_TRACES)) ++ [Line.blank]) ∧
    ∀ log' : List α, ALIGNMENT_MAX_TRACES < log'.length →
      log.take ALIGNMENT_MAX_TRACES = log'.take ALIGNMENT_MAX_TRACES →
      processGroup tr al g (GroupData.ok log) = processGroup tr al g (GroupData.ok log') := by
  have key : ∀ lg : List α, ALIGNMENT_MAX_TRACES < lg.length →
      processGroup tr al g (GroupData.ok lg) =
        Line.truncated g ALIGNMENT_MAX_TRACES :: Line.groupHeader g ::
          Line.tracesInLog ALIGNMENT_MAX_TRACES ::
          (token_replay_fitness (tr (lg.take ALIGNMENT_MAX_TRACES)) ++
           alignment_fitness (al (lg.take ALIGNMENT_MAX_TRACES)) ++ [Line.blank]) := by
    intro lg hlg
    have hne : ¬ (lg.length = 0) := by omega
    have htk : (lg.take ALIGNMENT_MAX_TRACES).length = ALIGNMENT_MAX_TRACES := by
      rw [List.length_take]
      omega
    simp [processGroup, hne, hlg, htk]
  refine ⟨key log h, fun log' h' he => ?_⟩
  rw [key log h, key log' h', he]

/-- Witness for C9: a 21-trace log is truncated, and a 22-trace log sharing
its first 20 traces produces the identical report. -/
theorem conformance_truncates_to_twenty_witness :
    ALIGNMENT_MAX_TRACES < log21.length ∧
    processGroup tr0 al0 "g" (GroupData.ok log21) =
      Line.truncated "g" ALIGNMENT_MAX_TRACES :: Line.groupHeader "g" ::
        Line.tracesInLog ALIGNMENT_MAX_TRACES ::
        (token_replay_fitness (tr0 (log21.take ALIGNMENT_MAX_TRACES)) ++
         alignment_fitness (al0 (log21.take ALIGNMENT_MAX_TRACES)) ++ [Line.blank]) ∧
    processGroup tr0 al0 "g" (GroupData.ok log21) =
      processGroup tr0 al0 "g" (GroupData.ok log21b) :=
  ⟨by decide,
   (conformance_truncates_to_twenty tr0 al0 "g" log21 (by decide)).1,
   (conformance_truncates_to_twenty tr0 al0 "g" log21 (by decide)).2 log21b
     (by decide) (by decide)⟩

/-- C10: semester labeling is total and exhaustive — `Unknown` exactly for a
missing timestamp, `Spring y` exactly for February–July of year `y`, and
`Autumn y` exactly for August–December of year `y` or January of year `y + 1`;
no other output exists (`Semester` has no further constructors). -/
theorem semester_labeling_total_exhaustive (o : Option Date)
    (hm : ∀ t, o = some t → 1 ≤ t.month ∧ t.month ≤ 12) :
    (DataPreparer.semester_from_date o = Semester.unknown ↔ o = none) ∧
    (∀ y, DataPreparer.semester_from_date o = Semester.spring y ↔
      ∃ t, o = some t ∧ t.year = y ∧ 2 ≤ t.month ∧ t.month ≤ 7) ∧
    (∀ y, DataPreparer.semester_from_date o = Semester.autumn y ↔
      ∃ t, o = some t ∧
        ((8 ≤ t.month ∧ t.month ≤ 12 ∧ t.year = y) ∨ (t.month = 1 ∧ t.year = y + 1))) := by
  rcases o with _ | t
  · refine ⟨by simp [DataPreparer.semester_from_date], fun y => ?_, fun y => ?_⟩
    · simp [DataPreparer.semester_from_date]
    · simp [DataPreparer.semester_from_date]
  · obtain ⟨hm1, hm2⟩ := hm t rfl
    rcases t with ⟨ty, tm, td⟩
    simp only [Date.mk.injEq] at hm1 hm2 ⊢
    interval_cases tm <;>
      simp [DataPreparer.semester_from_date, eq_comm] <;>
      (intro y) <;> omega

/-- Witness for C10 at the concrete timestamp 2024-03-15. -/
theorem semester_labeling_total_exhaustive_witness :
    (∀ t, (some (⟨2024, 3, 15⟩ : Date)) = some t → 1 ≤ t.month ∧ t.month ≤ 12) ∧
    ((DataPreparer.semester_from_date (some (⟨2024, 3, 15⟩ : Date)) = Semester.unknown ↔
        (some (⟨2024, 3, 15⟩ : Date)) = none) ∧
     (∀ y, DataPreparer.semester_from_date (some (⟨2024, 3, 15⟩ : Date)) = Semester.spring y ↔
        ∃ t, (some (⟨2024, 3, 15⟩ : Date)) = some t ∧ t.year = y ∧ 2 ≤ t.month ∧ t.month ≤ 7) ∧
     (∀ y, DataPreparer.semester_from_date (some (⟨2024, 3, 15⟩ : Date)) = Semester.autumn y ↔
        ∃ t, (some (⟨2024, 3, 15⟩ : Date)) = some t ∧
          ((8 ≤ t.month ∧ t.month ≤ 12 ∧ t.year = y) ∨ (t.month = 1 ∧ t.year = y + 1)))) :=
  ⟨fun t h => by cases h; exact ⟨by norm_num, by norm_num⟩,
   semester_labeling_total_exhaustive (some ⟨2024, 3, 15⟩)
     (fun t h => by cases h; exact ⟨by norm_num, by norm_num⟩)⟩
